import Mathlib

/-!
Shallow embedding of the BestPrice-Checker core (src/main.py): the price
parser, the two source adapters (Amazon, eBay), the aggregation and ranking
step of `SearchScreen._update_results`, and the sqlite-backed history store
(`DatabaseManager`, `HistoryScreen.load_history`).  Prices are modelled as
rationals (the decimal values the Python code parses), timestamps as a
strictly increasing logical clock (sqlite CURRENT_TIMESTAMP under insertion
order), and HTML containers as records of the optional elements each adapter
reads.  Python exceptions caught inside an adapter are modelled by totality:
each fallible step returns an `Option` and the caller skips `none`.
-/

namespace BestPrice

/-- Leftmost match of the digit-run pattern used by both regexes of
src/main.py (`[\d,]+\.?\d*` in `extract_price`, applied after every comma has
been removed, and `\d+\.?\d*` in the rating parser): the first maximal run of
digits, then, when a dot immediately follows, the digits right after it.
Returns the integer-part digits and the fractional digits, or `none` when
the text holds no digit. -/
def findNumRun : List Char → Option (List Char × List Char)
  | [] => none
  | c :: cs =>
    if c.isDigit then
      some ((c :: cs).takeWhile Char.isDigit,
        match (c :: cs).dropWhile Char.isDigit with
        | '.' :: rest => rest.takeWhile Char.isDigit
        | _ => [])
    else findNumRun cs

/-- Value of a run of decimal digit characters. -/
def digitsToNat (ds : List Char) : Nat :=
  ds.foldl (fun n c => 10 * n + (c.toNat - 48)) 0

/-- Numeric value of a matched run, as Python's `float` reads it
(`"1234.56"`, `"1234."`, `"1234"`). -/
def numRunVal (intPart fracPart : List Char) : ℚ :=
  (digitsToNat intPart : ℚ) + (digitsToNat fracPart : ℚ) / (10 : ℚ) ^ fracPart.length

/-- The comma removal `price_text.replace(',', '')` of src/main.py:145. -/
def stripCommas (s : String) : List Char :=
  s.data.filter (fun c => c ≠ ',')

/-- Model of `EcommerceScraper.extract_price` (src/main.py:141-148): on empty
input return 0.0; otherwise drop every comma, search the leftmost digit run
with optional fraction, and return its value, or 0.0 when no run exists. -/
def extract_price (price_text : String) : ℚ :=
  if price_text.data = [] then 0
  else
    match findNumRun (stripCommas price_text) with
    | none => 0
    | some r => numRunVal r.1 r.2

/-- Model of the rating extraction in `scrape_amazon` (src/main.py:182-185):
first decimal number in the text, absent when no digit occurs. -/
def ratingOf (rating_text : String) : Option ℚ :=
  (findNumRun rating_text.data).map (fun r => numRunVal r.1 r.2)

/-- The uniform product record (dataclass `Product`, src/main.py:44-52). -/
structure Product where
  name : String
  price : ℚ
  url : String
  store : String
  availability : String
  image_url : Option String := none
  rating : Option ℚ := none
deriving DecidableEq

/-- One candidate result block of a source's page, holding the text of the
optional elements an adapter reads from it: the name container's text, the
price container's text, the link anchor's href (`none` when the anchor
element itself is absent), the image src, and the rating container's text. -/
structure Block where
  name_elem : Option String
  price_elem : Option String
  link_href : Option String
  img_src : Option String
  rating_text : Option String
deriving DecidableEq

/-- Outcome of one adapter's HTTP fetch: `failure` covers a network error,
timeout or any other raised exception; `success` carries the response status
and the candidate blocks found in the parsed body. -/
inductive FetchOutcome where
  | failure
  | success (status : Nat) (blocks : List Block)
deriving DecidableEq

/-- Models `urllib.parse.urljoin` for the link shapes arising here: an empty
link resolves to the base, an absolute link replaces the base, a path is
appended to the host. -/
def urljoin (base rel : String) : String :=
  if rel = "" then base
  else if rel.startsWith "https://" || rel.startsWith "http://" then rel
  else base ++ rel

/-- Per-block extraction of `scrape_amazon` (src/main.py:160-199): skip when
the name container is absent, skip when the price container is absent; the
unguarded `container.find('h2').find('a')` raises `AttributeError` when no
anchor exists, which the per-block handler turns into a skip, so a block
without a link anchor yields no product. -/
def processAmazonContainer (b : Block) : Option Product :=
  match b.name_elem with
  | none => none
  | some nm =>
    match b.price_elem with
    | none => none
    | some ptext =>
      match b.link_href with
      | none => none
      | some href =>
        some { name := nm
               price := extract_price ptext
               url := urljoin "https://www.amazon.com" href
               store := "Amazon"
               availability := "In Stock"
               image_url := b.img_src
               rating := b.rating_text.bind ratingOf }

/-- Per-block extraction of `scrape_ebay` (src/main.py:216-246): skip when the
name or the price container is absent; the link lookup is guarded, so a
missing anchor yields an empty url; no rating is read. -/
def processEbayContainer (b : Block) : Option Product :=
  match b.name_elem with
  | none => none
  | some nm =>
    match b.price_elem with
    | none => none
    | some ptext =>
      some { name := nm
             price := extract_price ptext
             url := b.link_href.getD ""
             store := "eBay"
             availability := "Available"
             image_url := b.img_src
             rating := none }

/-- Model of `EcommerceScraper.scrape_amazon` (src/main.py:150-204): an
exception anywhere yields the empty list; a response whose status is not 200
yields the empty list; otherwise at most the first 3 candidate blocks are
processed, skipping those that fail per-block extraction. -/
def scrape_amazon (o : FetchOutcome) : List Product :=
  match o with
  | .failure => []
  | .success status blocks =>
    if status = 200 then (blocks.take 3).filterMap processAmazonContainer else []

/-- Model of `EcommerceScraper.scrape_ebay` (src/main.py:206-251), with the
same failure handling and cap of 3 blocks as the Amazon adapter. -/
def scrape_ebay (o : FetchOutcome) : List Product :=
  match o with
  | .failure => []
  | .success status blocks =>
    if status = 200 then (blocks.take 3).filterMap processEbayContainer else []

/-- Concatenation step of `SearchScreen._search_thread` (src/main.py:404-412):
the Amazon adapter's list, then the eBay adapter's list. -/
def all_products (amazonOutcome ebayOutcome : FetchOutcome) : List Product :=
  scrape_amazon amazonOutcome ++ scrape_ebay ebayOutcome

/-- Ranking order of `sorted(valid_products, key=lambda p: p.price)`
(src/main.py:436): ascending by price. -/
def lePrice (a b : Product) : Prop := a.price ≤ b.price

instance : DecidableRel lePrice := fun a b => inferInstanceAs (Decidable (a.price ≤ b.price))

instance : IsTotal Product lePrice := ⟨fun a b => le_total a.price b.price⟩

instance : IsTrans Product lePrice := ⟨fun _ _ _ h h2 => le_trans h h2⟩

/-- Filtering step of `SearchScreen._update_results` (src/main.py:435): keep
the products whose price is strictly positive. -/
def valid_products (products : List Product) : List Product :=
  products.filter (fun p => decide (0 < p.price))

/-- A row of the `products` table (src/main.py:69-76, inserted by
`DatabaseManager.save_product`). -/
structure ProductRow where
  id : Nat
  name : String
  search_query : String
  created_at : Nat
deriving DecidableEq

/-- A row of the `price_history` table (src/main.py:78-90, inserted by
`DatabaseManager.save_price_data`). -/
structure SnapshotRow where
  product_id : Nat
  store : String
  price : ℚ
  url : String
  availability : String
  rating : Option ℚ
  timestamp : Nat
deriving DecidableEq

/-- The sqlite database state: the two tables, the next AUTOINCREMENT id, and
a logical clock assigning one strictly increasing CURRENT_TIMESTAMP per
inserted row. -/
structure DB where
  products : List ProductRow
  price_history : List SnapshotRow
  nextId : Nat
  clock : Nat
deriving DecidableEq

/-- The freshly initialised database (`DatabaseManager.init_database`,
src/main.py:65-104): both tables empty, ids starting at 1. -/
def initDB : DB := { products := [], price_history := [], nextId := 1, clock := 0 }

/-- Model of `DatabaseManager.save_product` (src/main.py:106-116): insert one
row holding the product name and the search query, return the new row id. -/
def save_product (db : DB) (product_name search_query : String) : DB × Nat :=
  ({ db with
      products := db.products ++
        [{ id := db.nextId, name := product_name, search_query := search_query,
           created_at := db.clock }]
      nextId := db.nextId + 1
      clock := db.clock + 1 },
   db.nextId)

/-- The `price_history` row written for one product
(src/main.py:123-128). -/
def snapshotRow (pid : Nat) (t : Nat) (p : Product) : SnapshotRow :=
  { product_id := pid, store := p.store, price := p.price, url := p.url,
    availability := p.availability, rating := p.rating, timestamp := t }

/-- Rows inserted by the loop of `save_price_data`, one per product in list
order, stamped with consecutive logical timestamps. -/
def stampRows (pid : Nat) : Nat → List Product → List SnapshotRow
  | _, [] => []
  | t, p :: ps => snapshotRow pid t p :: stampRows pid (t + 1) ps

/-- Model of `DatabaseManager.save_price_data` (src/main.py:118-131): insert
one `price_history` row per product of the given list, unfiltered. -/
def save_price_data (db : DB) (pid : Nat) (products : List Product) : DB :=
  { db with
    price_history := db.price_history ++ stampRows pid db.clock products
    clock := db.clock + products.length }

/-- What a finished search reports: the ranked product list and the best
deal header, when any. -/
structure SearchOutcome where
  results : List Product
  bestDeal : Option Product
deriving DecidableEq

/-- Model of `SearchScreen._update_results` (src/main.py:421-461).  When the
concatenated list is empty the screen shows "No products found" and returns
before persisting anything.  Otherwise: keep the strictly positive prices,
stable-sort them ascending by price (Python's `sorted` is stable, so any
stable sort — here insertion sort — models it exactly), report the head of
the sorted list as best deal when it exists, and persist the *unfiltered*
list under a `products` row whose name and search_query are both the query
text. -/
def update_results (db : DB) (products : List Product) (product_name : String) :
    SearchOutcome × DB :=
  if products.isEmpty then
    ({ results := [], bestDeal := none }, db)
  else
    let sorted_products := List.insertionSort lePrice (valid_products products)
    let saved := save_product db product_name product_name
    ({ results := sorted_products, bestDeal := sorted_products.head? },
     save_price_data saved.1 saved.2 products)

/-- One row of the history query's SELECT (src/main.py:649-655). -/
structure HistoryRow where
  name : String
  store : String
  price : ℚ
  timestamp : Nat
deriving DecidableEq

/-- The join `products JOIN price_history ON p.id = ph.product_id`
(src/main.py:650-652); row ids are unique in every state this model
builds, so the matching product row is looked up by id. -/
def joinRows (db : DB) : List HistoryRow :=
  db.price_history.filterMap (fun ph =>
    (db.products.find? (fun p => decide (p.id = ph.product_id))).map
      (fun p => { name := p.name, store := ph.store, price := ph.price,
                  timestamp := ph.timestamp }))

/-- ORDER BY `ph.timestamp DESC` (src/main.py:653): newest first. -/
def newestFirst (a b : HistoryRow) : Prop := b.timestamp ≤ a.timestamp

instance : DecidableRel newestFirst := fun a b => inferInstanceAs (Decidable (b.timestamp ≤ a.timestamp))

instance : IsTotal HistoryRow newestFirst := ⟨fun a b => le_total b.timestamp a.timestamp⟩

instance : IsTrans HistoryRow newestFirst := ⟨fun _ _ _ h h2 => le_trans h2 h⟩

/-- Model of the query of `HistoryScreen.load_history` (src/main.py:649-655):
the join of the two tables, ordered by snapshot timestamp descending, with a
fixed `LIMIT 50`; the function takes no limit argument. -/
def load_history (db : DB) : List HistoryRow :=
  (List.insertionSort newestFirst (joinRows db)).take 50

/-- A sequence of completed searches applied to the fresh database: each
entry is the query text and the concatenated adapter output handed to
`_update_results`. -/
def runSearches (ops : List (String × List Product)) : DB :=
  ops.foldl (fun db op => (update_results db op.2 op.1).2) initDB

/-- The data of one `price_history` row as persisted from a product, without
the surrogate id columns. -/
def snapData (r : SnapshotRow) : String × ℚ × String × String × Option ℚ :=
  (r.store, r.price, r.url, r.availability, r.rating)

/-- The columns of a product that `save_price_data` writes. -/
def prodData (p : Product) : String × ℚ × String × String × Option ℚ :=
  (p.store, p.price, p.url, p.availability, p.rating)

/-- Sample concrete products used to instantiate the persisted-history
claims: three priced products as three searches would produce them. -/
def P1 : Product :=
  { name := "A1", price := 5, url := "u1", store := "Amazon", availability := "In Stock" }

def P2 : Product :=
  { name := "E1", price := 3, url := "u2", store := "eBay", availability := "Available" }

def P3 : Product :=
  { name := "E2", price := Rat.divInt 99 10, url := "u3", store := "eBay",
    availability := "Available" }

/-- The database after three searches, each persisting one snapshot. -/
def db3 : DB :=
  (update_results ((update_results ((update_results initDB [P1] "q1").2) [P2] "q2").2) [P3] "q3").2

/-- A product whose price text could not be parsed (sentinel price 0). -/
def Z0 : Product :=
  { name := "zero", price := 0, url := "", store := "Amazon", availability := "In Stock" }

/-- A product priced 9.99. -/
def N9 : Product :=
  { name := "nine", price := Rat.divInt 999 100, url := "", store := "eBay",
    availability := "Available" }

/-- An Amazon candidate block holding a name container and a price container
but no link anchor. -/
def b0 : Block :=
  { name_elem := some "Widget", price_elem := some "$5.00", link_href := none,
    img_src := none, rating_text := none }

/-! ### Helper lemmas -/

lemma update_results_results (db : DB) (ps : List Product) (nm : String) :
    ((update_results db ps nm).1).results = List.insertionSort lePrice (valid_products ps) := by
  cases ps <;> rfl

lemma update_results_bestDeal (db : DB) (ps : List Product) (nm : String) :
    ((update_results db ps nm).1).bestDeal
      = (List.insertionSort lePrice (valid_products ps)).head? := by
  cases ps <;> rfl

lemma update_results_price_history (db : DB) (ps : List Product) (nm : String) :
    ((update_results db ps nm).2).price_history
      = db.price_history ++ stampRows db.nextId (db.clock + 1) ps := by
  cases ps with
  | nil => simp [update_results, stampRows]
  | cons a l => rfl

lemma stampRows_map (pid : Nat) :
    ∀ (t : Nat) (ps : List Product), (stampRows pid t ps).map snapData = ps.map prodData
  | _, [] => rfl
  | t, p :: ps => by
    simp [stampRows, snapData, prodData, snapshotRow, stampRows_map pid (t + 1) ps]

/-- Stability of the ranking sort: within each price class the sorted list
keeps the input order. -/
lemma filter_insertionSort_price (v : ℚ) (l : List Product) :
    (List.insertionSort lePrice l).filter (fun p => decide (p.price = v))
      = l.filter (fun p => decide (p.price = v)) := by
  have hpair : (l.filter (fun p => decide (p.price = v))).Pairwise lePrice := by
    apply List.pairwise_of_forall_mem_list
    intro a ha b hb
    have hav : a.price = v := by simpa using (List.mem_filter.mp ha).2
    have hbv : b.price = v := by simpa using (List.mem_filter.mp hb).2
    exact le_of_eq (hav.trans hbv.symm)
  have hsub : ((l.filter (fun p => decide (p.price = v))).filter
        (fun p => decide (p.price = v))).Sublist
      ((List.insertionSort lePrice l).filter (fun p => decide (p.price = v))) :=
    List.Sublist.filter _ (List.sublist_insertionSort hpair (List.filter_sublist l))
  have hidem : (l.filter (fun p => decide (p.price = v))).filter
      (fun p => decide (p.price = v)) = l.filter (fun p => decide (p.price = v)) := by
    rw [List.filter_filter]
    simp
  rw [hidem] at hsub
  have hlen : ((List.insertionSort lePrice l).filter (fun p => decide (p.price = v))).length
      = (l.filter (fun p => decide (p.price = v))).length :=
    (List.Perm.filter _ (List.perm_insertionSort lePrice l)).length_eq
  exact (hsub.eq_of_length (by rw [hlen])).symm

lemma findNumRun_eq_none {l : List Char} (h : ∀ c ∈ l, c.isDigit = false) :
    findNumRun l = none := by
  induction l with
  | nil => rfl
  | cons c cs ih =>
    have hc := h c (List.mem_cons_self c cs)
    simp only [findNumRun, hc, Bool.false_eq_true, if_false]
    exact ih fun d hd => h d (List.mem_cons_of_mem c hd)

lemma mem_stripCommas {c : Char} {s : String} (hc : c ∈ stripCommas s) : c ∈ s.data :=
  List.mem_of_mem_filter hc

/-! ### Claim theorems -/

/-- C1: for every list of products produced by the adapters (Amazon's output
`aOut` followed by eBay's output `bOut`, as `_search_thread` concatenates
them), the ranked result list of `_update_results` is a permutation of the
products with strictly positive price, is non-decreasing in price for every
adjacent pair, and within every price class keeps the original concatenation
order. -/
theorem ranked_results_spec (db : DB) (nm : String) (aOut bOut : List Product) :
    (((update_results db (aOut ++ bOut) nm).1).results).Perm
        ((aOut ++ bOut).filter (fun p => decide (0 < p.price)))
  ∧ (((update_results db (aOut ++ bOut) nm).1).results).Pairwise lePrice
  ∧ ∀ v : ℚ,
      (((update_results db (aOut ++ bOut) nm).1).results).filter
          (fun p => decide (p.price = v))
        = (aOut ++ bOut).filter (fun p => decide (p.price = v) && decide (0 < p.price)) := by
  rw [update_results_results]
  refine ⟨List.perm_insertionSort lePrice _, List.sorted_insertionSort lePrice _, ?_⟩
  intro v
  rw [filter_insertionSort_price]
  exact List.filter_filter _ _

/-- C2: whenever `_update_results` reports a best deal, it is a product of
the concatenated adapter output with strictly positive price that no other
positively priced product undercuts; when the filtered set is empty — in
particular when every adapter returns an empty list — the ranked results are
empty and no best deal is reported.  The model is a total function, so no
exception reaches the caller. -/
theorem best_deal_spec (db : DB) (nm : String) (products : List Product) :
    (∀ p : Product, ((update_results db products nm).1).bestDeal = some p →
        0 < p.price ∧ p ∈ products ∧ ∀ q ∈ products, 0 < q.price → p.price ≤ q.price)
  ∧ (valid_products products = [] →
      ((update_results db products nm).1).results = [] ∧
      ((update_results db products nm).1).bestDeal = none) := by
  constructor
  · intro p hp
    rw [update_results_bestDeal] at hp
    cases hsort : List.insertionSort lePrice (valid_products products) with
    | nil => rw [hsort] at hp; simp at hp
    | cons a t =>
      rw [hsort] at hp
      have hpa : a = p := by simpa using hp
      subst hpa
      have hmem : a ∈ valid_products products := by
        have h1 : a ∈ List.insertionSort lePrice (valid_products products) := by
          rw [hsort]; exact List.mem_cons_self a t
        exact (List.mem_insertionSort lePrice).mp h1
      have h2 := List.mem_filter.mp hmem
      refine ⟨by simpa using h2.2, h2.1, ?_⟩
      intro q hq hq0
      have hqv : q ∈ valid_products products := List.mem_filter.mpr ⟨hq, by simpa using hq0⟩
      have hqs : q ∈ List.insertionSort lePrice (valid_products products) :=
        (List.mem_insertionSort lePrice).mpr hqv
      rw [hsort] at hqs
      cases List.mem_cons.mp hqs with
      | inl h => rw [h]
      | inr h =>
        have hsorted := List.sorted_insertionSort lePrice (valid_products products)
        rw [hsort] at hsorted
        exact List.rel_of_sorted_cons hsorted q h
  · intro hv
    rw [update_results_results, update_results_bestDeal, hv]
    exact ⟨rfl, rfl⟩

/-- C2 witness: with Amazon returning the 5-priced `P1` and eBay the 3-priced
`P2`, the reported best deal `P2` is positively priced and minimal. -/
theorem best_deal_spec_witness :
    0 < P2.price ∧ P2 ∈ [P1, P2] ∧ ∀ q ∈ [P1, P2], 0 < q.price → P2.price ≤ q.price :=
  (best_deal_spec initDB "q" [P1, P2]).1 P2 (by decide)

/-- C3: the snapshot rows persisted by `_update_results` are exactly the
unfiltered concatenated adapter output, zero-priced entries included; in
particular, with one source returning a price-0 product and the other a
9.99 product, the ranked results hold only the 9.99 product and it is the
best deal, while the persisted snapshot set holds both. -/
theorem persisted_unfiltered_spec :
    (∀ (db : DB) (nm : String) (products : List Product),
      (((update_results db products nm).2).price_history).map snapData
        = db.price_history.map snapData ++ products.map prodData)
  ∧ ((update_results initDB [Z0, N9] "phone").1).results = [N9]
  ∧ ((update_results initDB [Z0, N9] "phone").1).bestDeal = some N9
  ∧ (((update_results initDB [Z0, N9] "phone").2).price_history).map snapData
      = [prodData Z0, prodData N9] := by
  refine ⟨?_, by decide, by decide, by decide⟩
  intro db nm products
  rw [update_results_price_history, List.map_append, stampRows_map]

/-- C4: an adapter whose fetch raises (network error, timeout) returns the
empty list; a non-2xx response status returns the empty list; a page whose
blocks all fail extraction — in particular a page with zero parseable
blocks — returns the empty list; and either adapter failing leaves the other
adapter's contribution to the concatenation unchanged.  Raising is modelled
away by totality: every outcome yields a list. -/
theorem adapter_failure_spec :
    (scrape_amazon .failure = [] ∧ scrape_ebay .failure = [])
  ∧ (∀ (status : Nat) (blocks : List Block), status < 200 ∨ 300 ≤ status →
      scrape_amazon (.success status blocks) = []
        ∧ scrape_ebay (.success status blocks) = [])
  ∧ (∀ blocks : List Block, (∀ b ∈ blocks, processAmazonContainer b = none) →
      scrape_amazon (.success 200 blocks) = [])
  ∧ (∀ blocks : List Block, (∀ b ∈ blocks, processEbayContainer b = none) →
      scrape_ebay (.success 200 blocks) = [])
  ∧ (∀ oE : FetchOutcome, all_products .failure oE = scrape_ebay oE)
  ∧ (∀ oA : FetchOutcome, all_products oA .failure = scrape_amazon oA) := by
  refine ⟨⟨rfl, rfl⟩, ?_, ?_, ?_, fun oE => rfl, ?_⟩
  · intro status blocks h
    have hne : ¬ status = 200 := by omega
    exact ⟨by simp [scrape_amazon, hne], by simp [scrape_ebay, hne]⟩
  · intro blocks h
    simp only [scrape_amazon, if_pos rfl]
    exact List.filterMap_eq_nil_iff.mpr fun b hb => h b (List.take_subset 3 blocks hb)
  · intro blocks h
    simp only [scrape_ebay, if_pos rfl]
    exact List.filterMap_eq_nil_iff.mpr fun b hb => h b (List.take_subset 3 blocks hb)
  · intro oA
    simp [all_products, scrape_ebay]

/-- C4 witness: a 404 response from either source yields the empty list. -/
theorem adapter_failure_spec_witness :
    scrape_amazon (.success 404 [b0]) = [] ∧ scrape_ebay (.success 404 [b0]) = [] :=
  adapter_failure_spec.2.1 404 [b0] (by decide)

/-- C5: each adapter processes at most the first 3 candidate blocks of the
page, so a single adapter's list holds at most 3 products. -/
theorem adapter_cap_spec (o : FetchOutcome) :
    (scrape_amazon o).length ≤ 3 ∧ (scrape_ebay o).length ≤ 3 := by
  cases o with
  | failure => exact ⟨Nat.le_of_lt (by decide), Nat.le_of_lt (by decide)⟩
  | success status blocks =>
    constructor
    · simp only [scrape_amazon]
      split
      · exact le_trans (List.length_filterMap_le _ _) (List.length_take_le _ _)
      · simp
    · simp only [scrape_ebay]
      split
      · exact le_trans (List.length_filterMap_le _ _) (List.length_take_le _ _)
      · simp

/-- C6: the price parser maps the quoted examples as stated, and returns 0
without failing on every input that holds no digit (the empty string
included) — absence of a price is a silent, valid outcome. -/
theorem extract_price_spec :
    extract_price "$1,234.56" = 1234.56
  ∧ extract_price "" = 0
  ∧ extract_price "Free" = 0
  ∧ ∀ s : String, (∀ c ∈ s.data, c.isDigit = false) → extract_price s = 0 := by
  refine ⟨?_, by decide, by decide, ?_⟩
  · have hcond : ¬ ("$1,234.56".data = []) := by decide
    have hfind : findNumRun (stripCommas "$1,234.56")
        = some (['1', '2', '3', '4'], ['5', '6']) := by decide
    have h1 : digitsToNat ['1', '2', '3', '4'] = 1234 := by decide
    have h2 : digitsToNat ['5', '6'] = 56 := by decide
    simp only [extract_price, hcond, if_false, hfind]
    rw [numRunVal, h1, h2]
    norm_num
  · intro s h
    have hnone : findNumRun (stripCommas s) = none :=
      findNumRun_eq_none fun c hc => h c (mem_stripCommas hc)
    simp [extract_price, hnone]

/-- C6 witness: a digitless availability text parses to the sentinel 0. -/
theorem extract_price_spec_witness : extract_price "n/a" = 0 :=
  extract_price_spec.2.2.2 "n/a" (by decide)

/-- C7 counterexample: the claim that a block with both a name container and
a price container always yields a product record — the link being absent
only producing an empty url — fails on the Amazon adapter: block `b0` has
both containers but no link anchor, and the unguarded
`container.find('h2').find('a')` of src/main.py:172 raises, so the per-block
handler skips the block and no record is produced. -/
theorem amazon_link_skip_cex :
    ¬ (∀ b : Block, b.name_elem.isSome = true → b.price_elem.isSome = true →
        (processAmazonContainer b).isSome = true) := fun h =>
  absurd (h b0 rfl rfl) (by decide)

/-- C7 amended: a block missing the name or the price container is skipped
by both adapters; for eBay a block with both containers always yields a
record whose url falls back to the empty string when the link anchor is
absent; for Amazon a record is produced exactly when the link anchor is also
present, a block without one being skipped; and a skipped block never aborts
extraction of the remaining blocks. -/
theorem block_extraction_spec :
    (∀ b : Block, b.name_elem = none →
      processAmazonContainer b = none ∧ processEbayContainer b = none)
  ∧ (∀ b : Block, b.price_elem = none →
      processAmazonContainer b = none ∧ processEbayContainer b = none)
  ∧ (∀ (b : Block) (nm ptext : String), b.name_elem = some nm → b.price_elem = some ptext →
      processEbayContainer b
        = some { name := nm, price := extract_price ptext, url := b.link_href.getD "",
                 store := "eBay", availability := "Available", image_url := b.img_src,
                 rating := none })
  ∧ (∀ (b : Block) (nm ptext href : String), b.name_elem = some nm →
      b.price_elem = some ptext → b.link_href = some href →
      processAmazonContainer b
        = some { name := nm, price := extract_price ptext,
                 url := urljoin "https://www.amazon.com" href, store := "Amazon",
                 availability := "In Stock", image_url := b.img_src,
                 rating := b.rating_text.bind ratingOf })
  ∧ (∀ b : Block, b.link_href = none → processAmazonContainer b = none)
  ∧ (∀ (pre post : List Block) (b : Block),
      (processAmazonContainer b = none →
        (pre ++ b :: post).filterMap processAmazonContainer
          = (pre ++ post).filterMap processAmazonContainer)
      ∧ (processEbayContainer b = none →
        (pre ++ b :: post).filterMap processEbayContainer
          = (pre ++ post).filterMap processEbayContainer)) := by
  refine ⟨?_, ?_, ?_, ?_, ?_, ?_⟩
  · intro b hn
    exact ⟨by simp [processAmazonContainer, hn], by simp [processEbayContainer, hn]⟩
  · intro b hp
    cases hn : b.name_elem with
    | none => exact ⟨by simp [processAmazonContainer, hn], by simp [processEbayContainer, hn]⟩
    | some nm =>
      exact ⟨by simp [processAmazonContainer, hn, hp], by simp [processEbayContainer, hn, hp]⟩
  · intro b nm ptext hn hp
    simp [processEbayContainer, hn, hp]
  · intro b nm ptext href hn hp hl
    simp [processAmazonContainer, hn, hp, hl]
  · intro b hl
    cases hn : b.name_elem with
    | none => simp [processAmazonContainer, hn]
    | some nm =>
      cases hp : b.price_elem with
      | none => simp [processAmazonContainer, hn, hp]
      | some ptext => simp [processAmazonContainer, hn, hp, hl]
  · intro pre post b
    constructor
    · intro hskip
      simp [List.filterMap_append, List.filterMap_cons, hskip]
    · intro hskip
      simp [List.filterMap_append, List.filterMap_cons, hskip]

/-- C7 witness: an eBay block with name and price but no link anchor yields
a record with an empty url. -/
theorem block_extraction_spec_witness :
    processEbayContainer
        { name_elem := some "E", price_elem := some "$3", link_href := none,
          img_src := none, rating_text := none }
      = some { name := "E", price := extract_price "$3", url := "", store := "eBay",
               availability := "Available", image_url := none, rating := none } :=
  block_extraction_spec.2.2.1 _ "E" "$3" rfl rfl

/-- C8 counterexample: the claim that the history query is bounded by a
caller-supplied limit — so that `recentHistory(2)` after three searches
returns exactly the two most recently created snapshots — fails:
`load_history` takes no limit argument; after three searches each persisting
one snapshot it returns all three rows, never exactly two. -/
theorem history_limit_cex : ¬ ((load_history db3).length = 2) := by decide

/-- C8 amended: the history query returns rows of the join of the two
tables ordered by snapshot timestamp descending (newest first) with a fixed
limit of 50 and no caller-supplied limit; after three searches it returns
all three snapshots, most recent first. -/
theorem history_query_spec :
    (∀ db : DB, (load_history db).Pairwise newestFirst
      ∧ (load_history db).length ≤ 50
      ∧ ∀ r ∈ load_history db, r ∈ joinRows db)
  ∧ load_history db3 =
      [{ name := "q3", store := "eBay", price := Rat.divInt 99 10, timestamp := 5 },
       { name := "q2", store := "eBay", price := 3, timestamp := 3 },
       { name := "q1", store := "Amazon", price := 5, timestamp := 1 }] := by
  constructor
  · intro db
    refine ⟨?_, List.length_take_le _ _, ?_⟩
    · exact List.Pairwise.sublist (List.take_sublist 50 _)
        (List.sorted_insertionSort newestFirst (joinRows db))
    · intro r hr
      exact (List.mem_insertionSort newestFirst).mp (List.mem_of_mem_take hr)
  · decide

/-- C8 witness: the newest returned row is a row of the join. -/
theorem history_query_spec_witness :
    ({ name := "q3", store := "eBay", price := Rat.divInt 99 10, timestamp := 5 } : HistoryRow)
      ∈ joinRows db3 :=
  (history_query_spec.1 db3).2.2 _ (by decide)

/-- Invariant driving C10: every row of the `products` table has its name
equal to the search query, because `_update_results` calls
`save_product(product_name, product_name)` (src/main.py:458). -/
def NameEqQuery (db : DB) : Prop := ∀ row ∈ db.products, row.name = row.search_query

lemma nameEqQuery_update (db : DB) (ps : List Product) (nm : String)
    (h : NameEqQuery db) : NameEqQuery ((update_results db ps nm).2) := by
  cases ps with
  | nil => exact h
  | cons a l =>
    intro row hrow
    have hp : ((update_results db (a :: l) nm).2).products
        = db.products ++ [{ id := db.nextId, name := nm, search_query := nm,
                            created_at := db.clock }] := rfl
    rw [hp] at hrow
    rcases List.mem_append.mp hrow with h1 | h2
    · exact h row h1
    · have heq : row = { id := db.nextId, name := nm, search_query := nm, created_at := db.clock } := by
        simpa using h2
      rw [heq]

lemma runSearches_inv :
    ∀ (ops : List (String × List Product)) (db : DB), NameEqQuery db →
      NameEqQuery (ops.foldl (fun db op => (update_results db op.2 op.1).2) db)
  | [], _, h => h
  | op :: ops, db, h =>
    runSearches_inv ops _ (nameEqQuery_update db op.2 op.1 h)

lemma load_history_name (db : DB) (h : NameEqQuery db) :
    ∀ r ∈ load_history db, ∃ prow, prow ∈ db.products ∧ prow.name = prow.search_query ∧
      r.name = prow.search_query := by
  intro r hr
  have h1 : r ∈ joinRows db :=
    (List.mem_insertionSort newestFirst).mp (List.mem_of_mem_take hr)
  rcases List.mem_filterMap.mp h1 with ⟨ph, hph, hmap⟩
  rcases Option.map_eq_some'.mp hmap with ⟨prow, hfind, heq⟩
  have hmem : prow ∈ db.products := List.mem_of_find?_eq_some hfind
  have hnm : r.name = prow.name := by rw [← heq]
  exact ⟨prow, hmem, h prow hmem, by rw [hnm, h prow hmem]⟩

/-- C10: in every database state reachable by a sequence of searches from
the fresh database, each `products` row stores the query string as both its
name and its search_query, so every row the history query returns reports
the original query text as the product name — never a scraped product's
display name. -/
theorem history_name_query_spec (ops : List (String × List Product)) :
    (∀ row ∈ (runSearches ops).products, row.name = row.search_query)
  ∧ (∀ r ∈ load_history (runSearches ops),
      ∃ prow, prow ∈ (runSearches ops).products ∧ prow.name = prow.search_query ∧
        r.name = prow.search_query) := by
  have hinv : NameEqQuery (runSearches ops) :=
    runSearches_inv ops initDB (fun row hmem => absurd hmem (by simp [initDB]))
  exact ⟨hinv, load_history_name _ hinv⟩

/-- C10 witness: after one search for "q1" the single products row carries
the query as its name. -/
theorem history_name_query_spec_witness :
    ({ id := 1, name := "q1", search_query := "q1", created_at := 0 } : ProductRow).name
      = ({ id := 1, name := "q1", search_query := "q1", created_at := 0 } : ProductRow).search_query :=
  (history_name_query_spec [("q1", [P1])]).1 _ (by decide)

end BestPrice
